import Mathlib

/-!
Shallow embedding of the Scanova detection service
(`src/python_service/app.py`).

External collaborators (the YOLO model, the MediaPipe detector, OpenCV
primitives, the OCR backends) are opaque black boxes in the source; here
they are modelled as oracle values carried in an environment record: each
external call site reads the outcome that call would have produced.
Python floats that carry pixel coordinates and scores are modelled as `ℚ`
(every operation the code performs on them — comparison, `max`, `min`,
subtraction, division — is exact), machine integers as `Int`/`Nat`, and
Python exceptions as `Except String`, with the endpoint-level
`try/except` blocks modelled by matching on the `Except` value and
producing the failure response the handler builds.

Images are opaque handles (`Img`): the pipeline never inspects pixel
data itself, it only threads images between external calls.
-/

/-- Opaque handle for an in-memory image (raster contents are never
inspected by the orchestration code being verified). -/
abbrev Img := Nat

/-- Mirrors the `Detection` pydantic model (app.py lines 164-176):
pixel box, score, label, optional normalized coordinates. -/
structure Detection where
  x : ℚ
  y : ℚ
  width : ℚ
  height : ℚ
  score : ℚ
  label : String
  nx : Option ℚ
  ny : Option ℚ
  nwidth : Option ℚ
  nheight : Option ℚ
deriving DecidableEq

/-- Mirrors `DetectResponse` (app.py lines 179-184). -/
structure DetectResponse where
  success : Bool
  detections : List Detection
  image_width : Option Nat
  image_height : Option Nat
  error : Option String
deriving DecidableEq

/-- Mirrors `OcrDetection` (app.py lines 251-253): a `Detection` plus
extracted text and an OCR confidence. -/
structure OcrDetection where
  x : ℚ
  y : ℚ
  width : ℚ
  height : ℚ
  score : ℚ
  label : String
  nx : Option ℚ
  ny : Option ℚ
  nwidth : Option ℚ
  nheight : Option ℚ
  text : String
  ocr_score : ℚ
deriving DecidableEq

/-- Mirrors `DetectOcrResponse` (app.py lines 255-262). -/
structure DetectOcrResponse where
  success : Bool
  detections : List OcrDetection
  image_width : Option Nat
  image_height : Option Nat
  detector : Option String
  ocr_backend : Option String
  error : Option String
deriving DecidableEq

/-- A raw detector output tuple `(x, y, w, h, score, label)` as kept in
the `dets` list of `detect_ocr` (app.py lines 305, 160). -/
structure RawDet where
  x : Int
  y : Int
  w : Int
  h : Int
  score : ℚ
  label : String
deriving DecidableEq

/-- The fixed allow-list of document-like labels (app.py lines 217, 283). -/
def preferredLabels : List String :=
  ["book", "paper", "document", "notebook", "magazine", "laptop", "cell phone", "tv"]

/-- Box clamping as performed inline in `detect_ocr` on each MediaPipe
box (app.py lines 297-304):

    x, y = int(max(0, bb.origin_x)), int(max(0, bb.origin_y))
    w, h = int(max(0, bb.width)), int(max(0, bb.height))
    x2, y2 = min(W, x + w), min(H, y + h)
    x, y = min(x, W - 1), min(y, H - 1)
    w, h = max(0, x2 - x), max(0, y2 - y)
    if w <= 2 or h <= 2: continue   -- modelled as returning `none`

The reassigned `x, y, w, h` are named `xc, yc, wc, hc` here. -/
def clampBox (ox oy ow oh : Int) (W H : Nat) : Option (Int × Int × Int × Int) :=
  let x := max 0 ox
  let y := max 0 oy
  let w := max 0 ow
  let h := max 0 oh
  let x2 := min (W : Int) (x + w)
  let y2 := min (H : Int) (y + h)
  let xc := min x ((W : Int) - 1)
  let yc := min y ((H : Int) - 1)
  let wc := max 0 (x2 - xc)
  let hc := max 0 (y2 - yc)
  if wc ≤ 2 ∨ hc ≤ 2 then none else some (xc, yc, wc, hc)

/-- Pixel area of a raw detection, the sort key `t[2] * t[3]`
of app.py line 323. -/
def rdArea (d : RawDet) : Int := d.w * d.h

/-- Insertion step of the stable descending-by-area sort.  The element
`d` is placed before the first list element of area ≤ its own, so an
earlier-seen element is never moved behind an equal-area later one:
exactly the guarantee of CPython's stable `list.sort(key=..., reverse=True)`
at app.py line 323. -/
def insertByArea (d : RawDet) : List RawDet → List RawDet
  | [] => [d]
  | e :: es => if rdArea e ≤ rdArea d then d :: e :: es else e :: insertByArea d es

/-- Stable sort by descending pixel area: the model of
`dets.sort(key=lambda t: t[2] * t[3], reverse=True)` (app.py line 323). -/
def rankByAreaDesc : List RawDet → List RawDet
  | [] => []
  | d :: ds => insertByArea d (rankByAreaDesc ds)

/-- The crop-stage re-clamp of `detect_ocr` (app.py lines 329-332):

    rx1, ry1 = int(x), int(y)
    rx2, ry2 = int(min(W, x + w)), int(min(H, y + h))
    if rx2 - rx1 <= 2 or ry2 - ry1 <= 2: continue   -- modelled as `none`
-/
def cropRect (W H : Nat) (d : RawDet) : Option (Int × Int × Int × Int) :=
  let rx1 := d.x
  let ry1 := d.y
  let rx2 := min (W : Int) (d.x + d.w)
  let ry2 := min (H : Int) (d.y + d.h)
  if rx2 - rx1 ≤ 2 ∨ ry2 - ry1 ≤ 2 then none else some (rx1, ry1, rx2, ry2)

/-- OpenCV-based classical fallback `_cv_fallback_detect`
(app.py lines 147-160).  The external OpenCV pipeline
(grayscale → blur → Canny → contours → max-area contour → boundingRect)
is modelled by the oracle `cvRect`: `none` when OpenCV found no
contours, `some (x, y, w, h)` for the bounding rectangle of the
largest contour.  The 2%-of-image-area rejection and the fixed
score 0.4 / label "region" are the code's own logic. -/
def cvFallbackDetect (cvAvailable : Bool) (cvRect : Option (Int × Int × Int × Int))
    (W H : Nat) : List RawDet :=
  if !cvAvailable then []
  else
    match cvRect with
    | none => []
    | some r =>
      if ((r.2.2.1 * r.2.2.2 : Int) : ℚ) < ((H * W : Nat) : ℚ) * (2 / 100) then []
      else [⟨r.1, r.2.1, r.2.2.1, r.2.2.2, 4 / 10, "region"⟩]

/-- The two OCR backends the service can select at startup
(app.py lines 29-41). -/
inductive OcrBackend where
  | easyocr
  | pytesseract
deriving DecidableEq

/-- Response-field name of the selected backend (`OCR_BACKEND`). -/
def ocrBackendName : Option OcrBackend → Option String
  | none => none
  | some .easyocr => some "easyocr"
  | some .pytesseract => some "pytesseract"

/-- EasyOCR text post-processing (app.py line 132):
`"\n".join([t.strip() for t in result if isinstance(t, str)]).strip()`
(the oracle delivers the result list already as strings). -/
def joinOcrText (lines : List String) : String :=
  (String.intercalate "\n" (lines.map (fun t => t.trim))).trim

/-- `_run_ocr` (app.py lines 127-144).  The two backend calls are
oracle outcomes (`easyResult` for `reader.readtext`, `tessResult` for
`pytesseract.image_to_string`); `.error` means the call raised.  The
source tries the EasyOCR branch only when the backend is easyocr and
the reader object exists, swallows an exception there (falling through,
where the pytesseract guard is necessarily false), then tries the
pytesseract branch under its own guard, and finally returns
`("", 0.0)`. -/
def runOcr (backend : Option OcrBackend) (readerOk : Bool)
    (easyResult : Except String (List String)) (tessResult : Except String String) :
    String × ℚ :=
  let easyAttempt : Option (String × ℚ) :=
    if backend = some OcrBackend.easyocr ∧ readerOk then
      match easyResult with
      | .ok lines => some (joinOcrText lines, 0)
      | .error _ => none
    else none
  match easyAttempt with
  | some r => r
  | none =>
    let tessAttempt : Option (String × ℚ) :=
      if backend = some OcrBackend.pytesseract then
        match tessResult with
        | .ok t => some (t.trim, 0)
        | .error _ => none
      else none
    match tessAttempt with
    | some r => r
    | none => ("", 0)

/-- Number of backend recognition calls one `_run_ocr` invocation makes:
at most one — the EasyOCR branch calls `readtext` once when its guard
holds, otherwise the pytesseract branch calls `image_to_string` once
when its guard holds (the guards are mutually exclusive), and a failed
call falls through without a further backend call. -/
def runOcrCalls (backend : Option OcrBackend) (readerOk : Bool) : Nat :=
  if backend = some OcrBackend.easyocr ∧ readerOk then 1
  else if backend = some OcrBackend.pytesseract then 1
  else 0

/-- Oracle outcomes for the OpenCV primitives used by one invocation of
`_preprocess_for_ocr` (app.py lines 109-124): each field is the
behaviour of the corresponding `cv2` call on its input image
(`.error` = the call raised). -/
structure PreSteps where
  gray : Img → Except String Img
  bilateral : Img → Except String Img
  adaptive : Img → Except String Img
  otsu : Img → Except String Img
  morph : Img → Except String Img
  gray2rgb : Img → Except String Img

/-- `_preprocess_for_ocr` (app.py lines 109-124).  When OpenCV is
absent the ROI is returned unchanged.  Otherwise: grayscale →
bilateral filter → adaptive threshold, with ONLY the adaptive
threshold wrapped in `try/except` (falling back to Otsu) → morphological
opening → back to RGB.  A failure in any unguarded step propagates
(`Except.error`) — in the source it escapes `_preprocess_for_ocr` and is
only caught by `detect_ocr`'s outermost handler. -/
def preprocessForOcr (cvAvailable : Bool) (s : PreSteps) (roi : Img) :
    Except String Img :=
  if !cvAvailable then .ok roi
  else
    match s.gray roi with
    | .error e => .error e
    | .ok g =>
      match s.bilateral g with
      | .error e => .error e
      | .ok b =>
        let th : Except String Img :=
          match s.adaptive b with
          | .ok t => Except.ok t
          | .error _ => s.otsu b
        match th with
        | .error e => .error e
        | .ok t =>
          match s.morph t with
          | .error e => .error e
          | .ok m => s.gray2rgb m

/-- One MediaPipe category (name, score). -/
structure MpCategory where
  name : String
  score : ℚ
deriving DecidableEq

/-- One raw MediaPipe detection: its category list and bounding box
(`origin_x`, `origin_y`, `width`, `height`). -/
structure MpDet where
  categories : List MpCategory
  origin_x : Int
  origin_y : Int
  width : Int
  height : Int
deriving DecidableEq

/-- Per-detection processing of the MediaPipe loop body
(app.py lines 288-305): label / score extraction with defaults,
confidence filter, allow-list filter, then the inline clamp
(`clampBox`); `none` models `continue`. -/
def mpProcess (conf : ℚ) (preferredOnly : Bool) (W H : Nat) (d : MpDet) :
    Option RawDet :=
  let label := match d.categories with
    | [] => "object"
    | c :: _ => c.name
  let score := match d.categories with
    | [] => (0 : ℚ)
    | c :: _ => c.score
  if score < conf then none
  else if preferredOnly ∧ ¬ preferredLabels.contains label.toLower then none
  else
    match clampBox d.origin_x d.origin_y d.width d.height W H with
    | none => none
    | some c => some ⟨c.1, c.2.1, c.2.2.1, c.2.2.2, score, label⟩

/-- Request parameters of `detect_ocr` (app.py lines 265-269), with the
source's default values. -/
structure OcrParams where
  conf : ℚ := 30 / 100
  preferredOnly : Bool := true
  maxResults : Nat := 1
deriving DecidableEq

/-- Environment of one `detect_ocr` request: oracle outcomes of every
external call the handler can make.  Per-ROI oracles (`steps`, `roiImg`,
`easy`, `tess`) are indexed by the ROI's position in the ranked,
capped detection list.  `roiImg i` is the cropped (and possibly
resized — the resize block at lines 335-348 swallows its own
exceptions and only changes pixel content) ROI handle. -/
structure OcrPipeEnv where
  decode : Except String (Nat × Nat)
  mpDetector : Bool
  mpResult : Except String (List MpDet)
  cvAvailable : Bool
  cvRect : Option (Int × Int × Int × Int)
  backend : Option OcrBackend
  readerOk : Bool
  steps : Nat → PreSteps
  roiImg : Nat → Img
  easy : Nat → Except String (List String)
  tess : Nat → Except String String

/-- The primary (MediaPipe) detection stage of `detect_ocr`
(app.py lines 282-308): empty when the detector is unavailable or its
call raised, otherwise the filtered/clamped results. -/
def primaryDets (env : OcrPipeEnv) (p : OcrParams) (W H : Nat) : List RawDet :=
  if env.mpDetector then
    match env.mpResult with
    | .ok ds => ds.filterMap (mpProcess p.conf p.preferredOnly W H)
    | .error _ => []
  else []

/-- Assembles one `OcrDetection` record (app.py lines 353-358). -/
def mkOcrDet (W H : Nat) (rx1 ry1 rx2 ry2 : Int) (score : ℚ) (label : String)
    (text : String) (ocrScore : ℚ) : OcrDetection :=
  { x := (rx1 : ℚ), y := (ry1 : ℚ)
  , width := ((rx2 - rx1 : Int) : ℚ), height := ((ry2 - ry1 : Int) : ℚ)
  , score := score, label := label
  , nx := some ((rx1 : ℚ) / (W : ℚ)), ny := some ((ry1 : ℚ) / (H : ℚ))
  , nwidth := some (((rx2 - rx1 : Int) : ℚ) / (W : ℚ))
  , nheight := some (((ry2 - ry1 : Int) : ℚ) / (H : ℚ))
  , text := text, ocr_score := ocrScore }

/-- The per-ROI loop of `detect_ocr` (app.py lines 326-358), indexed by
loop position `i`.  A degenerate crop is skipped (`continue`); an
exception escaping `_preprocess_for_ocr` aborts the whole loop (it is
only caught by the endpoint's outer handler); `_run_ocr` is total. -/
def ocrLoop (env : OcrPipeEnv) (W H : Nat) : Nat → List RawDet →
    Except String (List OcrDetection)
  | _, [] => .ok []
  | i, d :: rest =>
    match cropRect W H d with
    | none => ocrLoop env W H (i + 1) rest
    | some r =>
      match preprocessForOcr env.cvAvailable (env.steps i) (env.roiImg i) with
      | .error e => .error e
      | .ok _roiP =>
        let tr := runOcr env.backend env.readerOk (env.easy i) (env.tess i)
        match ocrLoop env W H (i + 1) rest with
        | .error e => .error e
        | .ok restOut =>
          .ok (mkOcrDet W H r.1 r.2.1 r.2.2.1 r.2.2.2 d.score d.label tr.1 tr.2
            :: restOut)

/-- Result of one `detect_ocr` request together with the number of
times `_cv_fallback_detect` was invoked while serving it. -/
structure OcrRun where
  resp : DetectOcrResponse
  fallbackCalls : Nat
deriving DecidableEq

/-- Body of `detect_ocr` after a successful decode
(app.py lines 276-361): primary detection, conditional classical
fallback (lines 310-315), graceful empty return (lines 318-320),
area-descending ranking and result cap (lines 323-324), then the
per-ROI loop.  A loop-escaping exception yields the outer handler's
failure response (lines 362-363). -/
def detectOcrCore (env : OcrPipeEnv) (p : OcrParams) (W H : Nat) : OcrRun :=
  let dets0 := primaryDets env p W H
  let detUsed0 : Option String :=
    if env.mpDetector then
      match env.mpResult with
      | .ok _ => some "mediapipe"
      | .error _ => none
    else none
  let fbCalls := if dets0 = [] then 1 else 0
  let fb := if dets0 = [] then cvFallbackDetect env.cvAvailable env.cvRect W H else []
  let dets1 := dets0 ++ fb
  let detUsed1 := if dets0 = [] ∧ fb ≠ [] then some "opencv" else detUsed0
  if dets1 = [] then
    ⟨⟨true, [], some W, some H, detUsed1, ocrBackendName env.backend, none⟩, fbCalls⟩
  else
    let ranked := (rankByAreaDesc dets1).take p.maxResults
    match ocrLoop env W H 0 ranked with
    | .ok out =>
      ⟨⟨true, out, some W, some H, detUsed1, ocrBackendName env.backend, none⟩, fbCalls⟩
    | .error m => ⟨⟨false, [], none, none, none, none, some m⟩, fbCalls⟩

/-- The `detect_ocr` endpoint (app.py lines 264-363).  A decode failure
is caught by the outer handler and yields the structured failure
response; no exception escapes to the boundary layer (the function is
total). -/
def detectOcrRun (env : OcrPipeEnv) (p : OcrParams) : OcrRun :=
  match env.decode with
  | .error m => ⟨⟨false, [], none, none, none, none, some m⟩, 0⟩
  | .ok (W, H) => detectOcrCore env p W H

/-- One raw YOLO box as delivered by `res.boxes` (app.py lines 220-224):
corner coordinates, confidence, numeric class id. -/
structure YoloBox where
  x1 : ℚ
  y1 : ℚ
  x2 : ℚ
  y2 : ℚ
  conf : ℚ
  cls : Int
deriving DecidableEq

/-- Environment of one `detect` request: model availability flag
(`MODEL_OK`), decode outcome, inference outcome, and the model's class
name table (`MODEL_NAMES`, modelled as a partial lookup). -/
structure DetectEnv where
  modelOk : Bool
  decode : Except String (Nat × Nat)
  predict : Except String (List YoloBox)
  names : Int → Option String

/-- Request parameters of `detect` (app.py lines 193-198), with the
source's default values (`conf` and `imgsz` are forwarded to the
external model call and play no further role in the handler logic). -/
structure DetectParams where
  conf : ℚ := 25 / 100
  imgsz : Nat := 640
  preferredOnly : Bool := false
  normalized : Bool := true
deriving DecidableEq

/-- The per-box loop of `detect` (app.py lines 219-244): label
resolution through the class table with `str(cls_id)` as default,
optional allow-list filter, width/height floored at 0, optional
normalized coordinates.  No clamping of `x`, `y`, `x + width`,
`y + height` to the image is performed here.  (Decoded images have
positive dimensions; `ℚ` division is total, so the model needs no
zero guard.) -/
def detectLoop (W H : Nat) (p : DetectParams) (names : Int → Option String)
    (boxes : List YoloBox) : List Detection :=
  boxes.filterMap fun b =>
    let label := (names b.cls).getD (toString b.cls)
    if p.preferredOnly ∧ ¬ preferredLabels.contains label.toLower then none
    else
      let px := b.x1
      let py := b.y1
      let pw := max 0 (b.x2 - b.x1)
      let ph := max 0 (b.y2 - b.y1)
      some
        { x := px, y := py, width := pw, height := ph
        , score := b.conf, label := label
        , nx := if p.normalized then some (px / (W : ℚ)) else none
        , ny := if p.normalized then some (py / (H : ℚ)) else none
        , nwidth := if p.normalized then some (pw / (W : ℚ)) else none
        , nheight := if p.normalized then some (ph / (H : ℚ)) else none }

/-- The `detect` endpoint (app.py lines 192-248), paired with the
number of external inference calls made (`_model.predict`).  When
`MODEL_OK` is false the structured unavailability response is returned
before any external call (lines 200-201); decode or inference
exceptions are caught by the handler (lines 247-248). -/
def detectRun (env : DetectEnv) (p : DetectParams) : DetectResponse × Nat :=
  if !env.modelOk then (⟨false, [], none, none, some "Model not available"⟩, 0)
  else
    match env.decode with
    | .error m => (⟨false, [], none, none, some m⟩, 0)
    | .ok (W, H) =>
      match env.predict with
      | .error m => (⟨false, [], none, none, some m⟩, 1)
      | .ok boxes => (⟨true, detectLoop W H p env.names boxes, some W, some H, none⟩, 1)

/-- Bool-valued containment check of a returned detection box in the
image rectangle `[0, W] × [0, H]`. -/
def boxInBounds (W H : Nat) (d : Detection) : Bool :=
  decide (0 ≤ d.x) && decide (0 ≤ d.y) &&
  decide (d.x + d.width ≤ (W : ℚ)) && decide (d.y + d.height ≤ (H : ℚ))

/-- The source's default `detect_ocr` parameters. -/
def ocrDefaults : OcrParams := {}

/-- The source's default `detect` parameters. -/
def detectDefaults : DetectParams := {}

/-- Any box that survives the inline clamp of `detect_ocr` lies inside
`[0, W] × [0, H]` and is more than 2 px in each dimension (shared
helper; no sign condition on the inputs is needed because the clamp
itself floors them at 0). -/
theorem clampBox_bounds {ox oy ow oh : Int} {W H : Nat} {xc yc wc hc : Int}
    (h : clampBox ox oy ow oh W H = some (xc, yc, wc, hc)) :
    0 ≤ xc ∧ 0 ≤ yc ∧ xc + wc ≤ (W : Int) ∧ yc + hc ≤ (H : Int) ∧ 2 < wc ∧ 2 < hc := by
  simp only [clampBox] at h
  split at h
  · exact absurd h (by simp)
  · rename_i hcond
    push_neg at hcond
    rw [Option.some.injEq, Prod.mk.injEq, Prod.mk.injEq, Prod.mk.injEq] at h
    obtain ⟨h1, h2, h3, h4⟩ := h
    subst h1; subst h2; subst h3; subst h4
    omega

/-- C3: for every box with non-negative `x`, `y`, `width`, `height`
(including boxes overflowing the right or bottom edge), the inline
clamp of `detect_ocr` either rejects the box or returns one fully
contained in `[0, W] × [0, H]`, and every box it does return is more
than 2 px wide and 2 px tall (degenerate clamped boxes are skipped,
never emitted). -/
theorem clampBox_contains_and_rejects_degenerate
    (ox oy ow oh : Int) (W H : Nat) (xc yc wc hc : Int)
    (hx : 0 ≤ ox) (hy : 0 ≤ oy) (hw : 0 ≤ ow) (hh : 0 ≤ oh)
    (h : clampBox ox oy ow oh W H = some (xc, yc, wc, hc)) :
    0 ≤ xc ∧ 0 ≤ yc ∧ xc + wc ≤ (W : Int) ∧ yc + hc ≤ (H : Int) ∧ 2 < wc ∧ 2 < hc :=
  clampBox_bounds h

/-- Witness for C3: the box `(5, 5, 200, 200)` overflowing a 100×100
image is clamped to `(5, 5, 95, 95)`, which is inside the image and
non-degenerate. -/
theorem clampBox_contains_and_rejects_degenerate_witness :
    0 ≤ (5 : Int) ∧ 0 ≤ (5 : Int) ∧ (5 : Int) + 95 ≤ (100 : Int) ∧
      (5 : Int) + 95 ≤ (100 : Int) ∧ (2 : Int) < 95 ∧ (2 : Int) < 95 :=
  clampBox_contains_and_rejects_degenerate 5 5 200 200 100 100 5 5 95 95
    (by decide) (by decide) (by decide) (by decide) (by decide)

/-- C7: when OpenCV is unavailable, ROI pre-processing is the identity
transform — `_preprocess_for_ocr` returns the region unchanged. -/
theorem preprocess_identity_without_cv (s : PreSteps) (roi : Img) :
    preprocessForOcr false s roi = .ok roi := rfl

/-- C6: when the primary detector failed to initialize
(`MODEL_OK = False`), every `detect` request yields the structured
unavailability response — `success = false`, an error message, no
detections — and performs zero external inference calls, for any
input image. -/
theorem detect_unavailable_structured (env : DetectEnv) (p : DetectParams)
    (h : env.modelOk = false) :
    detectRun env p = (⟨false, [], none, none, some "Model not available"⟩, 0) := by
  unfold detectRun
  rw [h]
  rfl

/-- Concrete environment whose YOLO model failed to initialize. -/
def envNoModel : DetectEnv :=
  { modelOk := false
  , decode := .ok (10, 10)
  , predict := .ok []
  , names := fun _ => none }

/-- Witness for C6 at a concrete environment. -/
theorem detect_unavailable_structured_witness :
    detectRun envNoModel detectDefaults =
      (⟨false, [], none, none, some "Model not available"⟩, 0) :=
  detect_unavailable_structured envNoModel detectDefaults rfl

/-- Decidable test that a raw detection has pixel area `a` (used to
state sort stability per equal-area class). -/
def areaIs (a : Int) (e : RawDet) : Bool := decide (rdArea e = a)

/-- Inserting adds exactly one element. -/
theorem insertByArea_length (d : RawDet) :
    ∀ l : List RawDet, (insertByArea d l).length = l.length + 1
  | [] => rfl
  | e :: es => by
    by_cases h : rdArea e ≤ rdArea d
    · simp [insertByArea, h]
    · simp [insertByArea, h, insertByArea_length d es]

/-- The ranking stage is a permutation in length: it never drops or
duplicates a detection. -/
theorem rankByAreaDesc_length :
    ∀ l : List RawDet, (rankByAreaDesc l).length = l.length
  | [] => rfl
  | d :: ds => by
    simp [rankByAreaDesc, insertByArea_length, rankByAreaDesc_length ds]

/-- Members of an insertion are the inserted element or old members. -/
theorem mem_insertByArea {e d : RawDet} :
    ∀ {l : List RawDet}, e ∈ insertByArea d l → e = d ∨ e ∈ l := by
  intro l
  induction l with
  | nil => simp [insertByArea]
  | cons f fs ih =>
    by_cases h : rdArea f ≤ rdArea d
    · simp only [insertByArea, if_pos h]
      intro hm
      rcases List.mem_cons.mp hm with rfl | hm
      · exact Or.inl rfl
      · exact Or.inr hm
    · simp only [insertByArea, if_neg h]
      intro hm
      rcases List.mem_cons.mp hm with rfl | hm
      · exact Or.inr (List.mem_cons_self _ _)
      · rcases ih hm with rfl | hm2
        · exact Or.inl rfl
        · exact Or.inr (List.mem_cons_of_mem _ hm2)

/-- Members of the ranked list are members of the input. -/
theorem mem_rankByAreaDesc {e : RawDet} :
    ∀ {l : List RawDet}, e ∈ rankByAreaDesc l → e ∈ l := by
  intro l
  induction l with
  | nil => simp [rankByAreaDesc]
  | cons d ds ih =>
    intro hm
    rcases mem_insertByArea hm with rfl | hm
    · exact List.mem_cons_self _ _
    · exact List.mem_cons_of_mem _ (ih hm)

/-- Insertion preserves the descending-by-area ordering invariant. -/
theorem insertByArea_pairwise (d : RawDet) :
    ∀ {l : List RawDet}, l.Pairwise (fun a b => rdArea b ≤ rdArea a) →
      (insertByArea d l).Pairwise (fun a b => rdArea b ≤ rdArea a) := by
  intro l
  induction l with
  | nil => simp [insertByArea]
  | cons e es ih =>
    intro h
    rw [List.pairwise_cons] at h
    obtain ⟨he, hes⟩ := h
    by_cases hle : rdArea e ≤ rdArea d
    · simp only [insertByArea, if_pos hle]
      rw [List.pairwise_cons]
      refine ⟨?_, ?_⟩
      · intro f hf
        rcases List.mem_cons.mp hf with rfl | hf
        · exact hle
        · exact le_trans (he f hf) hle
      · rw [List.pairwise_cons]
        exact ⟨he, hes⟩
    · simp only [insertByArea, if_neg hle]
      rw [List.pairwise_cons]
      refine ⟨?_, ih hes⟩
      intro f hf
      rcases mem_insertByArea hf with rfl | hf
      · omega
      · exact he f hf

/-- The ranked list is sorted by descending area. -/
theorem rankByAreaDesc_pairwise :
    ∀ l : List RawDet,
      (rankByAreaDesc l).Pairwise (fun a b => rdArea b ≤ rdArea a)
  | [] => by simp [rankByAreaDesc]
  | d :: ds => insertByArea_pairwise d (rankByAreaDesc_pairwise ds)

/-- Inserting an element of area `a` prepends it to the area-`a`
subsequence: every element it is placed behind has strictly larger
area. -/
theorem insertByArea_filter_eq (d : RawDet) (a : Int) (hd : rdArea d = a) :
    ∀ l : List RawDet,
      (insertByArea d l).filter (areaIs a) = d :: l.filter (areaIs a)
  | [] => by simp [insertByArea, areaIs, hd]
  | e :: es => by
    by_cases h : rdArea e ≤ rdArea d
    · have h1 : insertByArea d (e :: es) = d :: e :: es := by
        simp [insertByArea, h]
      rw [h1]
      simp [List.filter_cons, areaIs, hd]
    · have h1 : insertByArea d (e :: es) = e :: insertByArea d es := by
        simp [insertByArea, h]
      have hne : ¬ rdArea e = a := by omega
      have he : areaIs a e = false := by simp [areaIs, hne]
      rw [h1, List.filter_cons, List.filter_cons, he,
        insertByArea_filter_eq d a hd es]
      simp

/-- Inserting an element of a different area leaves an area-`a`
subsequence unchanged. -/
theorem insertByArea_filter_ne (d : RawDet) (a : Int) (hd : ¬ rdArea d = a) :
    ∀ l : List RawDet,
      (insertByArea d l).filter (areaIs a) = l.filter (areaIs a)
  | [] => by simp [insertByArea, areaIs, hd]
  | e :: es => by
    by_cases h : rdArea e ≤ rdArea d
    · have h1 : insertByArea d (e :: es) = d :: e :: es := by
        simp [insertByArea, h]
      have hdf : areaIs a d = false := by simp [areaIs, hd]
      rw [h1, List.filter_cons, hdf]
      simp
    · have h1 : insertByArea d (e :: es) = e :: insertByArea d es := by
        simp [insertByArea, h]
      rw [h1, List.filter_cons, List.filter_cons,
        insertByArea_filter_ne d a hd es]

/-- Concrete detection of pixel area 500 (end-to-end scenario D). -/
def detArea500 : RawDet := ⟨0, 0, 25, 20, 1, "book"⟩

/-- Concrete detection of pixel area 2000 (end-to-end scenario D). -/
def detArea2000 : RawDet := ⟨10, 10, 50, 40, 1, "tv"⟩

/-- C4: ranking by descending area is stable — for every area class
the subsequence of that area is preserved exactly, so two equal-area
boxes are never reordered (first-seen wins) — the output is sorted by
descending area, truncation to the result cap `k` returns exactly
`min k (input length)` detections, and in particular ranking the
area-500 / area-2000 pair under `max_results = 1` keeps only the
area-2000 detection. -/
theorem rank_stable_sorted_capped :
    (∀ (l : List RawDet) (a : Int),
        (rankByAreaDesc l).filter (areaIs a) = l.filter (areaIs a)) ∧
    (∀ l : List RawDet,
        (rankByAreaDesc l).Pairwise (fun a b => rdArea b ≤ rdArea a)) ∧
    (∀ (l : List RawDet) (k : Nat),
        ((rankByAreaDesc l).take k).length = min k l.length) ∧
    (rankByAreaDesc [detArea500, detArea2000]).take 1 = [detArea2000] := by
  refine ⟨?_, rankByAreaDesc_pairwise, ?_, by decide⟩
  · intro l a
    induction l with
    | nil => rfl
    | cons d ds ih =>
      by_cases hd : rdArea d = a
      · rw [rankByAreaDesc, insertByArea_filter_eq d a hd, ih]
        simp [areaIs, hd]
      · rw [rankByAreaDesc, insertByArea_filter_ne d a hd, ih]
        simp [areaIs, hd]
  · intro l k
    rw [List.length_take, rankByAreaDesc_length]

/-- The fallback-invocation count of a decoded request is 1 exactly
when the primary stage produced nothing, else 0 (shared helper). -/
theorem detectOcrRun_fallbackCalls (env : OcrPipeEnv) (p : OcrParams) (W H : Nat)
    (h : env.decode = .ok (W, H)) :
    (detectOcrRun env p).fallbackCalls =
      (if primaryDets env p W H = [] then 1 else 0) := by
  unfold detectOcrRun
  rw [h]
  simp only [detectOcrCore]
  repeat' split
  all_goals rfl

/-- C2: for every request that decodes, the classical-vision fallback
detector is invoked at most once, and it is invoked (exactly once) if
and only if the primary detector stage produced zero usable detections
— because it was unavailable, its call raised, or every result was
filtered out. -/
theorem fallback_iff_no_primary (env : OcrPipeEnv) (p : OcrParams) (W H : Nat)
    (h : env.decode = .ok (W, H)) :
    (detectOcrRun env p).fallbackCalls ≤ 1 ∧
      ((detectOcrRun env p).fallbackCalls = 1 ↔ primaryDets env p W H = []) := by
  rw [detectOcrRun_fallbackCalls env p W H h]
  by_cases hp : primaryDets env p W H = [] <;> simp [hp]

/-- All-succeed OpenCV step oracle (each `cv2` call returns its input
handle unchanged). -/
def okSteps : PreSteps :=
  ⟨fun i => .ok i, fun i => .ok i, fun i => .ok i,
   fun i => .ok i, fun i => .ok i, fun i => .ok i⟩

/-- Concrete happy-path environment: 100×100 image, MediaPipe returns
one "book" detection covering `(0, 0, 50, 50)`, EasyOCR reads "hello". -/
def envHappy : OcrPipeEnv :=
  { decode := .ok (100, 100)
  , mpDetector := true
  , mpResult := .ok [⟨[⟨"book", 1⟩], 0, 0, 50, 50⟩]
  , cvAvailable := false
  , cvRect := none
  , backend := some .easyocr
  , readerOk := true
  , steps := fun _ => okSteps
  , roiImg := fun _ => 0
  , easy := fun _ => .ok ["hello"]
  , tess := fun _ => .ok "hello" }

/-- Concrete request parameters with a zero confidence threshold. -/
def pHappy : OcrParams := ⟨0, true, 1⟩

/-- Witness for C2 at the concrete happy-path request. -/
theorem fallback_iff_no_primary_witness :
    (detectOcrRun envHappy pHappy).fallbackCalls ≤ 1 ∧
      ((detectOcrRun envHappy pHappy).fallbackCalls = 1 ↔
        primaryDets envHappy pHappy 100 100 = []) :=
  fallback_iff_no_primary envHappy pHappy 100 100 rfl

/-- C9: an input whose bytes cannot be decoded yields, on both
endpoints, `success = false`, an empty detection list and a non-empty
error message; the handlers return this structured response instead of
letting the decoder's exception escape (both `detectRun` and
`detectOcrRun` are total functions into response values). -/
theorem decode_failure_structured (envD : DetectEnv) (pD : DetectParams)
    (envO : OcrPipeEnv) (pO : OcrParams) (m m' : String)
    (hD : envD.decode = .error m) (hm : m ≠ "")
    (hO : envO.decode = .error m') (hm' : m' ≠ "") :
    ((detectRun envD pD).1.success = false ∧
      (detectRun envD pD).1.detections = [] ∧
      ∃ e, (detectRun envD pD).1.error = some e ∧ e ≠ "") ∧
    detectOcrRun envO pO = ⟨⟨false, [], none, none, none, none, some m'⟩, 0⟩ := by
  refine ⟨?_, ?_⟩
  · cases hM : envD.modelOk with
    | false =>
      have hresp : detectRun envD pD =
          (⟨false, [], none, none, some "Model not available"⟩, 0) := by
        unfold detectRun
        rw [hM]
        rfl
      rw [hresp]
      exact ⟨rfl, rfl, "Model not available", rfl, by decide⟩
    | true =>
      have hresp : detectRun envD pD = (⟨false, [], none, none, some m⟩, 0) := by
        unfold detectRun
        rw [hM, hD]
        rfl
      rw [hresp]
      exact ⟨rfl, rfl, m, rfl, hm⟩
  · unfold detectOcrRun
    rw [hO]

/-- Concrete environment whose upload is corrupt (decode raises). -/
def envBadBytes : DetectEnv :=
  { modelOk := true
  , decode := .error "cannot identify image file"
  , predict := .ok []
  , names := fun _ => none }

/-- Concrete OCR-endpoint environment whose upload is corrupt. -/
def envBadBytesOcr : OcrPipeEnv :=
  { decode := .error "cannot identify image file"
  , mpDetector := false
  , mpResult := .ok []
  , cvAvailable := false
  , cvRect := none
  , backend := none
  , readerOk := false
  , steps := fun _ => okSteps
  , roiImg := fun _ => 0
  , easy := fun _ => .ok []
  , tess := fun _ => .ok "" }

/-- Witness for C9 at concrete corrupt-input requests. -/
theorem decode_failure_structured_witness :
    ((detectRun envBadBytes detectDefaults).1.success = false ∧
      (detectRun envBadBytes detectDefaults).1.detections = [] ∧
      ∃ e, (detectRun envBadBytes detectDefaults).1.error = some e ∧ e ≠ "") ∧
    detectOcrRun envBadBytesOcr ocrDefaults =
      ⟨⟨false, [], none, none, none, none, some "cannot identify image file"⟩, 0⟩ :=
  decode_failure_structured envBadBytes detectDefaults envBadBytesOcr ocrDefaults
    "cannot identify image file" "cannot identify image file"
    rfl (by decide) rfl (by decide)

/-- Every `_run_ocr` return path carries confidence 0.0 (shared
helper). -/
theorem runOcr_snd_zero (backend : Option OcrBackend) (readerOk : Bool)
    (easyResult : Except String (List String)) (tessResult : Except String String) :
    (runOcr backend readerOk easyResult tessResult).2 = 0 := by
  cases backend with
  | none => cases easyResult <;> cases tessResult <;> simp [runOcr]
  | some bk =>
    cases bk <;> cases readerOk <;> cases easyResult <;> cases tessResult <;>
      simp [runOcr]

/-- Every record emitted by the per-ROI loop has `ocr_score = 0`
(shared helper). -/
theorem ocrLoop_ocr_score_zero {env : OcrPipeEnv} {W H : Nat} :
    ∀ (l : List RawDet) (i : Nat) (out : List OcrDetection),
      ocrLoop env W H i l = .ok out → ∀ d ∈ out, d.ocr_score = 0 := by
  intro l
  induction l with
  | nil =>
    intro i out h d hd
    simp only [ocrLoop] at h
    rw [Except.ok.injEq] at h
    subst h
    exact absurd hd (List.not_mem_nil d)
  | cons rd rest ih =>
    intro i out h d hd
    simp only [ocrLoop] at h
    split at h
    · exact ih (i + 1) out h d hd
    · cases hpre : preprocessForOcr env.cvAvailable (env.steps i) (env.roiImg i) with
      | error e => rw [hpre] at h; cases h
      | ok img =>
        rw [hpre] at h
        cases hrec : ocrLoop env W H (i + 1) rest with
        | error e => rw [hrec] at h; cases h
        | ok restOut =>
          rw [hrec] at h
          rw [Except.ok.injEq] at h
          subst h
          rcases List.mem_cons.mp hd with rfl | hd2
          · exact runOcr_snd_zero env.backend env.readerOk (env.easy i) (env.tess i)
          · exact ih (i + 1) restOut hrec d hd2

/-- Characterization of a decoded request's detection list: it is
either empty or exactly the output of the per-ROI loop run on the
ranked, capped detection list (shared helper). -/
theorem detectOcrRun_detections (env : OcrPipeEnv) (p : OcrParams) (W H : Nat)
    (h : env.decode = .ok (W, H)) :
    (detectOcrRun env p).resp.detections = [] ∨
      ocrLoop env W H 0
        ((rankByAreaDesc (primaryDets env p W H ++
          (if primaryDets env p W H = []
            then cvFallbackDetect env.cvAvailable env.cvRect W H
            else []))).take p.maxResults) =
        .ok ((detectOcrRun env p).resp.detections) := by
  unfold detectOcrRun
  rw [h]
  simp only [detectOcrCore]
  repeat' split
  all_goals
    first
    | exact Or.inl rfl
    | exact Or.inr (by assumption)

/-- C10: the recognizer's confidence output is 0.0 on every path —
also on a successful backend call that extracted non-empty text — and
consequently every `RecognizedRegion` in every `detect_ocr` response
has `ocr_score = 0.0`. -/
theorem ocr_confidence_always_zero :
    (∀ (backend : Option OcrBackend) (readerOk : Bool)
        (easyResult : Except String (List String)) (tessResult : Except String String),
        (runOcr backend readerOk easyResult tessResult).2 = 0) ∧
    (∀ (env : OcrPipeEnv) (p : OcrParams),
        ((detectOcrRun env p).resp.detections.all
          (fun d => decide (d.ocr_score = 0))) = true) := by
  refine ⟨runOcr_snd_zero, ?_⟩
  intro env p
  rw [List.all_eq_true]
  intro d hd
  rw [decide_eq_true_eq]
  cases hdec : env.decode with
  | error m =>
    unfold detectOcrRun at hd
    rw [hdec] at hd
    exact absurd hd (List.not_mem_nil d)
  | ok wh =>
    obtain ⟨W, H⟩ := wh
    rcases detectOcrRun_detections env p W H hdec with hnil | hloop
    · rw [hnil] at hd
      exact absurd hd (List.not_mem_nil d)
    · exact ocrLoop_ocr_score_zero _ 0 _ hloop d hd

/-- Witness for C10: the happy-path request extracts the non-empty
text "hello" for its single region, yet its `ocr_score` is 0. -/
theorem ocr_confidence_always_zero_witness :
    ((detectOcrRun envHappy pHappy).resp.detections.all
      (fun d => decide (d.ocr_score = 0))) = true :=
  ocr_confidence_always_zero.2 envHappy pHappy

/-- When every ROI's pre-processing succeeds, the per-ROI loop always
returns a result list — `_run_ocr` itself never raises (shared
helper). -/
theorem ocrLoop_ok_of_preprocess_ok {env : OcrPipeEnv} {W H : Nat}
    (hpre : ∀ j, ∃ img,
      preprocessForOcr env.cvAvailable (env.steps j) (env.roiImg j) = .ok img) :
    ∀ (l : List RawDet) (i : Nat), ∃ out, ocrLoop env W H i l = .ok out := by
  intro l
  induction l with
  | nil => intro i; exact ⟨[], rfl⟩
  | cons d rest ih =>
    intro i
    obtain ⟨out, hout⟩ := ih (i + 1)
    obtain ⟨img, himg⟩ := hpre i
    cases hcrop : cropRect W H d with
    | none =>
      refine ⟨out, ?_⟩
      simp only [ocrLoop, hcrop]
      exact hout
    | some r =>
      exact ⟨mkOcrDet W H r.1 r.2.1 r.2.2.1 r.2.2.2 d.score d.label
          (runOcr env.backend env.readerOk (env.easy i) (env.tess i)).1
          (runOcr env.backend env.readerOk (env.easy i) (env.tess i)).2 :: out, by
        simp only [ocrLoop, hcrop, himg, hout]⟩

/-- C5: a failing recognition never escalates — when no backend is
available `_run_ocr` returns `("", 0.0)` making zero backend calls;
when the selected backend's call raises it returns `("", 0.0)` after
that single call without attempting a further backend call; and the
per-ROI loop processes every subsequent ROI exactly as it would have
anyway: the head ROI contributes whatever `_run_ocr` yields for it
while the tail's output is precisely the loop's output on the tail. -/
theorem ocr_failure_isolated :
    (∀ (readerOk : Bool) (easyResult : Except String (List String))
        (tessResult : Except String String),
        runOcr none readerOk easyResult tessResult = ("", 0) ∧
          runOcrCalls none readerOk = 0) ∧
    (∀ (e : String) (tessResult : Except String String),
        runOcr (some OcrBackend.easyocr) true (.error e) tessResult = ("", 0) ∧
          runOcrCalls (some OcrBackend.easyocr) true = 1) ∧
    (∀ (readerOk : Bool) (easyResult : Except String (List String)) (e : String),
        runOcr (some OcrBackend.pytesseract) readerOk easyResult (.error e) = ("", 0) ∧
          runOcrCalls (some OcrBackend.pytesseract) readerOk = 1) ∧
    (∀ (env : OcrPipeEnv) (W H : Nat) (d : RawDet) (rest : List RawDet)
        (i : Nat) (r : Int × Int × Int × Int),
        cropRect W H d = some r →
        (∀ j, ∃ img,
          preprocessForOcr env.cvAvailable (env.steps j) (env.roiImg j) = .ok img) →
        ∃ l, ocrLoop env W H (i + 1) rest = .ok l ∧
          ocrLoop env W H i (d :: rest) = .ok
            (mkOcrDet W H r.1 r.2.1 r.2.2.1 r.2.2.2 d.score d.label
              (runOcr env.backend env.readerOk (env.easy i) (env.tess i)).1
              (runOcr env.backend env.readerOk (env.easy i) (env.tess i)).2 :: l)) := by
  refine ⟨?_, ?_, ?_, ?_⟩
  · intro readerOk easyResult tessResult
    exact ⟨by cases easyResult <;> cases tessResult <;> simp [runOcr],
      by simp [runOcrCalls]⟩
  · intro e tessResult
    exact ⟨by cases tessResult <;> simp [runOcr], by simp [runOcrCalls]⟩
  · intro readerOk easyResult e
    exact ⟨by cases easyResult <;> cases readerOk <;> simp [runOcr],
      by cases readerOk <;> simp [runOcrCalls]⟩
  · intro env W H d rest i r hcrop hpre
    obtain ⟨l, hl⟩ := ocrLoop_ok_of_preprocess_ok hpre rest (i + 1)
    obtain ⟨img, himg⟩ := hpre i
    refine ⟨l, hl, ?_⟩
    simp only [ocrLoop, hcrop, himg, hl]

/-- The raw detection the happy-path request's MediaPipe stage emits. -/
def rdHappy : RawDet := ⟨0, 0, 50, 50, 1, "book"⟩

/-- Witness for C5: the batch-isolation conjunct applied to the
happy-path environment with a single surviving ROI. -/
theorem ocr_failure_isolated_witness :
    ∃ l, ocrLoop envHappy 100 100 (0 + 1) [] = .ok l ∧
      ocrLoop envHappy 100 100 0 [rdHappy] = .ok
        (mkOcrDet 100 100 0 0 50 50 rdHappy.score rdHappy.label
          (runOcr envHappy.backend envHappy.readerOk (envHappy.easy 0)
            (envHappy.tess 0)).1
          (runOcr envHappy.backend envHappy.readerOk (envHappy.easy 0)
            (envHappy.tess 0)).2 :: l) :=
  ocr_failure_isolated.2.2.2 envHappy 100 100 rdHappy [] 0 (0, 0, 50, 50) rfl
    (fun j => ⟨envHappy.roiImg j, rfl⟩)

/-- OpenCV step oracle whose grayscale conversion raises. -/
def badGraySteps : PreSteps :=
  ⟨fun _ => .error "cvtColor failed", fun i => .ok i, fun i => .ok i,
   fun i => .ok i, fun i => .ok i, fun i => .ok i⟩

/-- OpenCV step oracle whose adaptive thresholding raises while every
other step succeeds. -/
def adaptiveFailSteps : PreSteps :=
  ⟨fun i => .ok i, fun i => .ok i, fun _ => .error "adaptiveThreshold failed",
   fun i => .ok i, fun i => .ok i, fun i => .ok i⟩

/-- Concrete request whose single ROI hits a grayscale-conversion
failure inside `_preprocess_for_ocr`. -/
def envPreFail : OcrPipeEnv :=
  { decode := .ok (100, 100)
  , mpDetector := true
  , mpResult := .ok [⟨[⟨"book", 1⟩], 0, 0, 50, 50⟩]
  , cvAvailable := true
  , cvRect := none
  , backend := some .easyocr
  , readerOk := true
  , steps := fun _ => badGraySteps
  , roiImg := fun _ => 0
  , easy := fun _ => .ok ["hello"]
  , tess := fun _ => .ok "hello" }

/-- Request parameters with a zero confidence threshold and the
label allow-list filter disabled. -/
def pNoFilter : OcrParams := ⟨0, false, 1⟩

/-- Counterexample to C8: a grayscale-conversion failure on a single
ROI does NOT fall back to the unmodified region — it aborts the whole
request, which returns `success = false` with no detections instead of
completing normally. -/
theorem preprocess_step_failure_aborts_request :
    (detectOcrRun envPreFail pNoFilter).resp.success = false ∧
    (detectOcrRun envPreFail pNoFilter).resp.detections = [] ∧
    (detectOcrRun envPreFail pNoFilter).resp.error = some "cvtColor failed" := by
  decide

/-- C8 (amended): only the binarization step of `_preprocess_for_ocr`
is best-effort — when adaptive thresholding fails the stage falls back
to Otsu global thresholding (not to the unmodified region) and the
pipeline continues; a failure in the grayscale-conversion step (and
likewise any other unguarded step) propagates out of the stage, and a
propagating pre-processing failure aborts the whole per-ROI loop of
the request. -/
theorem preprocess_only_binarization_guarded :
    (∀ (s : PreSteps) (roi g b t m r : Img) (e : String),
        s.gray roi = .ok g → s.bilateral g = .ok b →
        s.adaptive b = .error e → s.otsu b = .ok t →
        s.morph t = .ok m → s.gray2rgb m = .ok r →
        preprocessForOcr true s roi = .ok r) ∧
    (∀ (s : PreSteps) (roi : Img) (e : String),
        s.gray roi = .error e → preprocessForOcr true s roi = .error e) ∧
    (∀ (env : OcrPipeEnv) (W H : Nat) (d : RawDet) (rest : List RawDet)
        (i : Nat) (r : Int × Int × Int × Int) (e : String),
        cropRect W H d = some r →
        preprocessForOcr env.cvAvailable (env.steps i) (env.roiImg i) = .error e →
        ocrLoop env W H i (d :: rest) = .error e) := by
  refine ⟨?_, ?_, ?_⟩
  · intro s roi g b t m r e h1 h2 h3 h4 h5 h6
    simp [preprocessForOcr, Except.bind, h1, h2, h3, h4, h5, h6]
  · intro s roi e h1
    simp [preprocessForOcr, Except.bind, h1]
  · intro env W H d rest i r e hcrop hpre
    simp only [ocrLoop, hcrop, hpre]

/-- Witness for the amended C8: with every step except adaptive
thresholding succeeding, the stage still returns a processed image;
and with a failing grayscale step it returns that step's error. -/
theorem preprocess_only_binarization_guarded_witness :
    preprocessForOcr true adaptiveFailSteps 7 = .ok 7 ∧
    preprocessForOcr true badGraySteps 7 = .error "cvtColor failed" :=
  ⟨preprocess_only_binarization_guarded.1 adaptiveFailSteps 7 7 7 7 7 7
      "adaptiveThreshold failed" rfl rfl rfl rfl rfl rfl,
    preprocess_only_binarization_guarded.2.1 badGraySteps 7 "cvtColor failed" rfl⟩

/-- A surviving crop rectangle has its left/top at the detection's
corner, right/bottom clamped to the image, and is more than 2 px in
each dimension (shared helper). -/
theorem cropRect_bounds {W H : Nat} {rd : RawDet} {r : Int × Int × Int × Int}
    (h : cropRect W H rd = some r) :
    r.1 = rd.x ∧ r.2.1 = rd.y ∧ r.2.2.1 ≤ (W : Int) ∧ r.2.2.2 ≤ (H : Int) ∧
      2 < r.2.2.1 - r.1 ∧ 2 < r.2.2.2 - r.2.1 := by
  simp only [cropRect] at h
  split at h
  · exact absurd h (by simp)
  · rename_i hc
    push_neg at hc
    rw [Option.some.injEq] at h
    subst h
    dsimp only
    refine ⟨rfl, rfl, ?_, ?_, ?_, ?_⟩ <;> omega

/-- Raw detections emitted by the MediaPipe stage have non-negative
corners (shared helper). -/
theorem mpProcess_nonneg {conf : ℚ} {po : Bool} {W H : Nat} {d : MpDet}
    {rd : RawDet} (h : mpProcess conf po W H d = some rd) :
    0 ≤ rd.x ∧ 0 ≤ rd.y := by
  simp only [mpProcess] at h
  split at h
  · exact absurd h (by simp)
  · split at h
    · exact absurd h (by simp)
    · split at h
      · exact absurd h (by simp)
      · rename_i c hclamp
        rw [Option.some.injEq] at h
        subst h
        have hb := clampBox_bounds hclamp
        exact ⟨hb.1, hb.2.1⟩

/-- Every raw detection of the primary stage has non-negative corners
(shared helper). -/
theorem primaryDets_nonneg {env : OcrPipeEnv} {p : OcrParams} {W H : Nat} :
    ∀ rd ∈ primaryDets env p W H, 0 ≤ rd.x ∧ 0 ≤ rd.y := by
  intro rd hrd
  unfold primaryDets at hrd
  split at hrd
  · split at hrd
    · obtain ⟨a, ha, hma⟩ := List.mem_filterMap.mp hrd
      exact mpProcess_nonneg hma
    · exact absurd hrd (List.not_mem_nil rd)
  · exact absurd hrd (List.not_mem_nil rd)

/-- Under the boundingRect sign guarantee, fallback detections have
non-negative corners (shared helper). -/
theorem cvFallbackDetect_nonneg {cvA : Bool} {cvR : Option (Int × Int × Int × Int)}
    {W H : Nat}
    (hrect : ∀ x y w h, cvR = some (x, y, w, h) → 0 ≤ x ∧ 0 ≤ y) :
    ∀ rd ∈ cvFallbackDetect cvA cvR W H, 0 ≤ rd.x ∧ 0 ≤ rd.y := by
  intro rd hrd
  unfold cvFallbackDetect at hrd
  cases hR : cvR with
  | none =>
    rw [hR] at hrd
    split at hrd
    · exact absurd hrd (List.not_mem_nil rd)
    · exact absurd hrd (List.not_mem_nil rd)
  | some r =>
    rw [hR] at hrd
    split at hrd
    · exact absurd hrd (List.not_mem_nil rd)
    · dsimp only at hrd
      split at hrd
      · exact absurd hrd (List.not_mem_nil rd)
      · rw [List.mem_singleton] at hrd
        subst hrd
        exact hrect r.1 r.2.1 r.2.2.1 r.2.2.2 (by rw [hR])

/-- Every record emitted by the per-ROI loop on corner-non-negative
raw detections lies inside the image (shared helper). -/
theorem ocrLoop_bounds {env : OcrPipeEnv} {W H : Nat} :
    ∀ (l : List RawDet) (i : Nat) (out : List OcrDetection),
      (∀ rd ∈ l, 0 ≤ rd.x ∧ 0 ≤ rd.y) →
      ocrLoop env W H i l = .ok out →
      ∀ d ∈ out, 0 ≤ d.x ∧ 0 ≤ d.y ∧
        d.x + d.width ≤ (W : ℚ) ∧ d.y + d.height ≤ (H : ℚ) := by
  intro l
  induction l with
  | nil =>
    intro i out hnn h d hd
    simp only [ocrLoop] at h
    rw [Except.ok.injEq] at h
    subst h
    exact absurd hd (List.not_mem_nil d)
  | cons rd rest ih =>
    intro i out hnn h d hd
    have hnn0 : 0 ≤ rd.x ∧ 0 ≤ rd.y := hnn rd (List.mem_cons_self _ _)
    have hnnr : ∀ e ∈ rest, 0 ≤ e.x ∧ 0 ≤ e.y :=
      fun e he => hnn e (List.mem_cons_of_mem _ he)
    simp only [ocrLoop] at h
    split at h
    · exact ih (i + 1) out hnnr h d hd
    · rename_i r hcrop
      cases hpre : preprocessForOcr env.cvAvailable (env.steps i) (env.roiImg i) with
      | error e => rw [hpre] at h; cases h
      | ok img =>
        rw [hpre] at h
        cases hrec : ocrLoop env W H (i + 1) rest with
        | error e => rw [hrec] at h; cases h
        | ok restOut =>
          rw [hrec] at h
          rw [Except.ok.injEq] at h
          subst h
          rcases List.mem_cons.mp hd with rfl | hd2
          · obtain ⟨he1, he2, he3, he4, he5, he6⟩ := cropRect_bounds hcrop
            have hx : (0 : Int) ≤ r.1 := he1 ▸ hnn0.1
            have hy : (0 : Int) ≤ r.2.1 := he2 ▸ hnn0.2
            have hxw : (r.1 + (r.2.2.1 - r.1) : Int) ≤ ((W : Nat) : Int) := by omega
            have hyh : (r.2.1 + (r.2.2.2 - r.2.1) : Int) ≤ ((H : Nat) : Int) := by
              omega
            simp only [mkOcrDet]
            refine ⟨?_, ?_, ?_, ?_⟩
            · exact_mod_cast hx
            · exact_mod_cast hy
            · exact_mod_cast hxw
            · exact_mod_cast hyh
          · exact ih (i + 1) restOut hnnr hrec d hd2

/-- Bool-valued containment check of a recognized region's box in
`[0, W] × [0, H]`. -/
def ocrBoxInBounds (W H : Nat) (d : OcrDetection) : Bool :=
  decide (0 ≤ d.x) && decide (0 ≤ d.y) &&
  decide (d.x + d.width ≤ (W : ℚ)) && decide (d.y + d.height ≤ (H : ℚ))

/-- Concrete `detect` environment: a 10×10 image for which the model
returns one box whose corner coordinates lie outside the image
(`x1 = -5`, `x2 = 20`). -/
def envYoloWide : DetectEnv :=
  { modelOk := true
  , decode := .ok (10, 10)
  , predict := .ok [⟨-5, 0, 20, 5, 1, 0⟩]
  , names := fun _ => none }

/-- Concrete `detect` parameters (no label filter, no normalized
output). -/
def pYolo : DetectParams := ⟨1, 640, false, false⟩

/-- Counterexample to C1: the plain detection operation performs no
clamping — the successful response for `envYoloWide` contains a
detection whose box fails the containment check against the decoded
10×10 image (its `x` is the model's raw `-5`). -/
theorem detect_box_not_clamped :
    (detectRun envYoloWide pYolo).1.success = true ∧
    (detectRun envYoloWide pYolo).1.image_width = some 10 ∧
    (detectRun envYoloWide pYolo).1.image_height = some 10 ∧
    ((detectRun envYoloWide pYolo).1.detections.all (boxInBounds 10 10)) = false := by
  decide

/-- C1 (amended): in the OCR-augmented operation every returned
bounding box is non-negative and clamped to the decoded image
(`0 ≤ x`, `0 ≤ y`, `x + width ≤ W`, `y + height ≤ H`, granted the
boundingRect sign guarantee for the classical fallback's rectangle);
the plain detection operation guarantees only `width ≥ 0` and
`height ≥ 0`, passing the model's corner coordinates through
unclamped. -/
theorem boxes_clamped_in_ocr_pipeline :
    (∀ (env : OcrPipeEnv) (p : OcrParams) (W H : Nat),
        env.decode = .ok (W, H) →
        (∀ x y w h, env.cvRect = some (x, y, w, h) → 0 ≤ x ∧ 0 ≤ y) →
        ((detectOcrRun env p).resp.detections.all (ocrBoxInBounds W H)) = true) ∧
    (∀ (env : DetectEnv) (p : DetectParams),
        ((detectRun env p).1.detections.all
          (fun d => decide (0 ≤ d.width) && decide (0 ≤ d.height))) = true) := by
  constructor
  · intro env p W H hdec hrect
    rw [List.all_eq_true]
    intro d hd
    rcases detectOcrRun_detections env p W H hdec with hnil | hloop
    · rw [hnil] at hd
      exact absurd hd (List.not_mem_nil d)
    · have hmem : ∀ rd ∈ ((rankByAreaDesc (primaryDets env p W H ++
          (if primaryDets env p W H = []
            then cvFallbackDetect env.cvAvailable env.cvRect W H
            else []))).take p.maxResults), 0 ≤ rd.x ∧ 0 ≤ rd.y := by
        intro rd hrd
        have hrd2 := mem_rankByAreaDesc (List.take_subset _ _ hrd)
        rcases List.mem_append.mp hrd2 with hA | hB
        · exact primaryDets_nonneg rd hA
        · by_cases hp : primaryDets env p W H = []
          · rw [if_pos hp] at hB
            exact cvFallbackDetect_nonneg hrect rd hB
          · rw [if_neg hp] at hB
            exact absurd hB (List.not_mem_nil rd)
      have hb := ocrLoop_bounds _ 0 _ hmem hloop d hd
      unfold ocrBoxInBounds
      simp only [Bool.and_eq_true, decide_eq_true_eq]
      exact ⟨⟨⟨hb.1, hb.2.1⟩, hb.2.2.1⟩, hb.2.2.2⟩
  · intro env p
    rw [List.all_eq_true]
    intro d hd
    cases hM : env.modelOk with
    | false =>
      unfold detectRun at hd
      rw [hM] at hd
      simp at hd
    | true =>
      unfold detectRun at hd
      rw [hM] at hd
      cases hdec : env.decode with
      | error m =>
        rw [hdec] at hd
        simp at hd
      | ok wh =>
        obtain ⟨W, H⟩ := wh
        rw [hdec] at hd
        cases hpred : env.predict with
        | error m =>
          rw [hpred] at hd
          simp at hd
        | ok boxes =>
          rw [hpred] at hd
          simp only [Bool.not_true, Bool.false_eq_true, if_false] at hd
          unfold detectLoop at hd
          obtain ⟨b, hb, hmk⟩ := List.mem_filterMap.mp hd
          by_cases hf : p.preferredOnly ∧
              ¬ preferredLabels.contains ((env.names b.cls).getD (toString b.cls)).toLower
          · rw [if_pos hf] at hmk
            cases hmk
          · rw [if_neg hf] at hmk
            rw [Option.some.injEq] at hmk
            subst hmk
            simp only [Bool.and_eq_true, decide_eq_true_eq]
            exact ⟨le_max_left 0 _, le_max_left 0 _⟩

/-- Witness for the amended C1 at the concrete happy-path request and
a concrete plain-detection request. -/
theorem boxes_clamped_in_ocr_pipeline_witness :
    ((detectOcrRun envHappy pHappy).resp.detections.all
      (ocrBoxInBounds 100 100)) = true ∧
    ((detectRun envYoloWide pYolo).1.detections.all
      (fun d => decide (0 ≤ d.width) && decide (0 ≤ d.height))) = true :=
  ⟨boxes_clamped_in_ocr_pipeline.1 envHappy pHappy 100 100 rfl
      (fun x y w h hr => nomatch hr),
    boxes_clamped_in_ocr_pipeline.2 envYoloWide pYolo⟩
